import Mathlib

/-!
Verification of the login/session-acquisition retry flow of
`example.py` (monarchmoney-enhanced).

The whole decision logic of the program lives in `main` (example.py,
lines 11-123) and the `__main__` block (lines 126-131).  We embed it
shallowly:

* The remote service is an environment: `sR n` is the outcome of the
  n-th stored-session login call (`mm.login(..., use_saved_session=True)`,
  lines 40-46), `fR n` the outcome of the n-th fresh login call
  (`mm.login(..., use_saved_session=False)`, lines 66-72).  Since the
  stored-session call happens exactly once per loop iteration, its call
  counter coincides with the loop variable `attempt`, and we index `sR`
  by `attempt` directly.

* One execution of the `for attempt in range(max_rate_limit_retries)`
  loop (lines 37-85) is embedded twice with the same recursion
  structure: `loopExit` computes how the loop terminates and
  `loopTrace` the sequence of observable events (remote login calls and
  `asyncio.sleep` calls) it performs, in order.

* `mainExit`/`mainTrace` add the credential presence check
  (lines 24-28), the `login_successful` check (lines 87-89), the
  `get_accounts` phase (lines 92-96) and the outer exception handlers
  (lines 98-123), which all map to the return value 1.

* `scriptRun` embeds the `__main__` block (lines 126-131): it prints a
  message depending on `main`'s return value and then falls off the end
  of the script, so the Python process terminates normally with exit
  status 0 (the script never calls `sys.exit`).
-/

namespace MMLogin

/-- Which login path a remote call used: the saved-session login of
lines 40-46 or the fresh credential login of lines 66-72. -/
inductive LoginPath
  | stored
  | fresh
deriving DecidableEq, Repr

/-- Outcome of a single remote login call, classifying what `mm.login`
does: returns normally, raises `RateLimitError`, raises
`RequireMFAException`, or raises any other `Exception`. -/
inductive AttemptOutcome
  | success
  | rateLimited
  | mfaRequired
  | otherFailure
deriving DecidableEq, Repr

/-- An observable event of the login loop: a remote login call on one
of the two paths with its outcome, or an `await asyncio.sleep(d)`
(lines 56 and 81). -/
inductive LoginEvent
  | call (p : LoginPath) (o : AttemptOutcome)
  | sleep (d : Nat)
deriving DecidableEq, Repr

/-- The constant `max_rate_limit_retries = 3` (example.py line 35). -/
def maxRateLimitRetries : Nat := 3

/-- How the `for attempt in range(3)` loop can end:
`loggedIn` = `break` with `login_successful = True` (lines 48-49, 74-75);
`returnOne` = `return 1` after rate-limit exhaustion (lines 60, 85);
`fellThrough` = the range is exhausted without a break (then lines 87-89
return 1); `uncaughtMFA` / `uncaughtOther` = the fresh login raised
`RequireMFAException` / another exception, which no handler inside the
loop catches, so it propagates to the outer handlers (lines 98-123). -/
inductive LoopExit
  | loggedIn
  | returnOne
  | fellThrough
  | uncaughtMFA
  | uncaughtOther
deriving DecidableEq, Repr

/-- The exit of the login loop (example.py lines 37-85), by recursion on
the remaining loop iterations: `fuel` iterations remain, `a` is the
current value of the loop variable `attempt`, `nF` counts fresh login
calls made so far.  The loop is entered with
`fuel = maxRateLimitRetries`, `a = 0`, `nF = 0`.

Per iteration: the stored-session login (line 40) runs first.  On
success: break (line 49).  On `RateLimitError` (line 51): if
`attempt < max_rate_limit_retries - 1` sleep and `continue`
(lines 53-57), else `return 1` (line 60).  On any other exception
(line 62): the fresh login (line 66) runs; on success break (line 75);
on `RateLimitError` (line 76) the same sleep/`continue`-or-`return 1`
logic (lines 78-85); any other exception propagates out of the loop. -/
def loopExit (sR fR : Nat → AttemptOutcome) : Nat → Nat → Nat → LoopExit
  | 0, _, _ => .fellThrough
  | fuel + 1, a, nF =>
    match sR a with
    | .success => .loggedIn
    | .rateLimited =>
      if a < maxRateLimitRetries - 1 then loopExit sR fR fuel (a + 1) nF
      else .returnOne
    | _ =>
      match fR nF with
      | .success => .loggedIn
      | .rateLimited =>
        if a < maxRateLimitRetries - 1 then loopExit sR fR fuel (a + 1) (nF + 1)
        else .returnOne
      | .mfaRequired => .uncaughtMFA
      | .otherFailure => .uncaughtOther

/-- The ordered list of observable events (remote login calls and
backoff sleeps) performed by the login loop: same recursion as
`loopExit`, same source lines.  The sleep durations are
`wait_time = 60 * (2 ** attempt)` (lines 54 and 79). -/
def loopTrace (sR fR : Nat → AttemptOutcome) : Nat → Nat → Nat → List LoginEvent
  | 0, _, _ => []
  | fuel + 1, a, nF =>
    match sR a with
    | .success => [.call .stored .success]
    | .rateLimited =>
      if a < maxRateLimitRetries - 1 then
        .call .stored .rateLimited :: .sleep (60 * 2 ^ a) ::
          loopTrace sR fR fuel (a + 1) nF
      else [.call .stored .rateLimited]
    | e =>
      match fR nF with
      | .success => [.call .stored e, .call .fresh .success]
      | .rateLimited =>
        if a < maxRateLimitRetries - 1 then
          .call .stored e :: .call .fresh .rateLimited :: .sleep (60 * 2 ^ a) ::
            loopTrace sR fR fuel (a + 1) (nF + 1)
        else [.call .stored e, .call .fresh .rateLimited]
      | .mfaRequired => [.call .stored e, .call .fresh .mfaRequired]
      | .otherFailure => [.call .stored e, .call .fresh .otherFailure]

/-- Python truthiness of an optional environment variable, as consumed
by `not all([MONARCH_EMAIL, MONARCH_PASS])` (line 24): `os.getenv`
returns `None` when the variable is unset, and both `None` and the
empty string are falsy. -/
def pyTruthy : Option String → Bool
  | none => false
  | some s => !(s == "")

/-- The return value of `main()` (lines 11-123).  If `MONARCH_EMAIL` or
`MONARCH_PASS` is not truthy, return 1 before any remote call
(lines 24-28).  Otherwise run the login loop; if it broke with a login,
run `get_accounts` (line 92, abstracted to the boolean `accountsOk`:
any exception it raises reaches an outer handler, lines 98-123, all of
which return 1) and return 0 (line 96).  Every non-`loggedIn` loop exit
returns 1: directly (lines 60, 85), via the `login_successful` check
(lines 87-89), or via the outer handlers (lines 98-123).  `mfa` is
`MONARCH_MFA`: it is passed to `mm.login` but never branched on. -/
def mainExit (email pw mfa : Option String) (sR fR : Nat → AttemptOutcome)
    (accountsOk : Bool) : Nat :=
  if pyTruthy email && pyTruthy pw then
    match loopExit sR fR maxRateLimitRetries 0 0 with
    | .loggedIn => if accountsOk then 0 else 1
    | _ => 1
  else 1

/-- The login-call/sleep events `main()` performs: none when the
credential check fails (lines 24-28), otherwise exactly the events of
the login loop. -/
def mainTrace (email pw mfa : Option String) (sR fR : Nat → AttemptOutcome) :
    List LoginEvent :=
  if pyTruthy email && pyTruthy pw then loopTrace sR fR maxRateLimitRetries 0 0
  else []

/-- The `__main__` block (lines 126-131): given `main`'s return value it
prints one of two messages and then the script ends.  The second
component is the resulting process exit status: the script never calls
`sys.exit`, so the Python process always terminates normally with
status 0, whatever `exit_code` held. -/
def scriptRun (exitCode : Nat) : String × Nat :=
  (if exitCode = 0 then "Main completed successfully." else "Main failed to complete.",
   0)

/-- The durations of the sleep events of a trace, in order. -/
def sleepDur? : LoginEvent → Option Nat
  | .sleep d => some d
  | _ => none

/-- The list of backoff sleep durations of a trace, in order. -/
def sleepDurs (tr : List LoginEvent) : List Nat := tr.filterMap sleepDur?

/-- Number of remote login calls on path `p` in a trace. -/
def callsOn (p : LoginPath) (tr : List LoginEvent) : Nat :=
  tr.countP fun e => match e with | .call q _ => decide (q = p) | _ => false

/-- Total number of remote login calls in a trace. -/
def totalCalls (tr : List LoginEvent) : Nat :=
  tr.countP fun e => match e with | .call _ _ => true | _ => false

/-- Number of fresh-path rate-limited call events in a trace: the
per-path attempt index a hypothetical independent fresh-login retry
counter would hold. -/
def freshRLCount (tr : List LoginEvent) : Nat :=
  tr.countP fun e => decide (e = .call .fresh .rateLimited)

/-- Environment answering every login call with `RateLimitError`. -/
def envAllRL : Nat → AttemptOutcome := fun _ => .rateLimited

/-- Environment answering every login call with a session. -/
def envAllSuccess : Nat → AttemptOutcome := fun _ => .success

/-- Environment answering every login call with `RequireMFAException`. -/
def envAllMfa : Nat → AttemptOutcome := fun _ => .mfaRequired

/-- Environment answering every login call with a non-rate-limit,
non-MFA exception. -/
def envAllOther : Nat → AttemptOutcome := fun _ => .otherFailure

/-- Stored-session environment: rate limited on the first call, then
non-rate-limit failures (drives the loop to the fresh path after one
stored backoff). -/
def envRLThenOther : Nat → AttemptOutcome
  | 0 => .rateLimited
  | _ => .otherFailure

/-- Stored-session environment: a non-rate-limit failure on the first
call, then success. -/
def envOtherThenSuccess : Nat → AttemptOutcome
  | 0 => .otherFailure
  | _ => .success

/-- Stored-session environment of spec scenario 2: rate limited twice,
then success. -/
def envRLRLSuccess : Nat → AttemptOutcome
  | 0 => .rateLimited
  | 1 => .rateLimited
  | _ => .success

/-- Claim C1 formalized as stated: once any login attempt (either path)
yields `mfaRequired`, no later login call of any path appears in the
trace. -/
def mfaTerminalClaim (sR fR : Nat → AttemptOutcome) : Prop :=
  ∀ (i j : Nat) (p q : LoginPath) (o : AttemptOutcome), i < j →
    (loopTrace sR fR maxRateLimitRetries 0 0)[i]? = some (.call p .mfaRequired) →
    (loopTrace sR fR maxRateLimitRetries 0 0)[j]? ≠ some (.call q o)

/-- Claim C2 formalized as stated (the consequence that refutes it): if
the fresh-login retry counter were independent of the stored-session
one and reset to zero when the path changes, then the backoff sleep
following a fresh-path rate limit would last `60 * 2 ^ n` where `n` is
the number of fresh-path rate limits seen so far. -/
def independentFreshBudgetClaim (sR fR : Nat → AttemptOutcome) : Prop :=
  ∀ i d,
    (loopTrace sR fR maxRateLimitRetries 0 0)[i]? =
      some (.call .fresh .rateLimited) →
    (loopTrace sR fR maxRateLimitRetries 0 0)[i + 1]? = some (.sleep d) →
    d = 60 * 2 ^ freshRLCount ((loopTrace sR fR maxRateLimitRetries 0 0).take i)

/-- Claim C3 formalized as stated: after a fresh-login rate limit and
its backoff sleep, the next login attempt is on the fresh path. -/
def freshRetryStaysFreshClaim (sR fR : Nat → AttemptOutcome) : Prop :=
  ∀ i d e,
    (loopTrace sR fR maxRateLimitRetries 0 0)[i]? =
      some (.call .fresh .rateLimited) →
    (loopTrace sR fR maxRateLimitRetries 0 0)[i + 1]? = some (.sleep d) →
    (loopTrace sR fR maxRateLimitRetries 0 0)[i + 1 + 1]? = some e →
    ∃ o, e = .call .fresh o

/-- Every loop iteration starts with the stored-session login call
(line 40), so a nonempty trace starts with a stored call whose outcome
is the environment's answer for the current attempt index. -/
theorem loopTrace_head (sR fR : Nat → AttemptOutcome) (fuel a nF : Nat) :
    (loopTrace sR fR (fuel + 1) a nF).head? = some (.call .stored (sR a)) := by
  rcases h : sR a with _ | _ | _ | _ <;>
    rcases hf : fR nF with _ | _ | _ | _ <;>
      simp [loopTrace, h, hf] <;> split <;> simp

/-- The first event of any nonempty trace of the loop is a
stored-session login call. -/
theorem loopTrace_get_zero (sR fR : Nat → AttemptOutcome) (fuel a nF : Nat)
    (e : LoginEvent) (h : (loopTrace sR fR fuel a nF)[0]? = some e) :
    ∃ o, e = .call .stored o := by
  rcases fuel with _ | fuel
  · simp [loopTrace] at h
  · rw [← List.head?_eq_getElem?, loopTrace_head sR fR fuel a nF] at h
    exact ⟨sR a, (Option.some_inj.mp h).symm⟩

/-- The loop makes at most `fuel` stored calls, at most `fuel` fresh
calls and at most `2 * fuel` calls in total: each iteration performs
one stored call (line 40) and at most one fresh call (line 66). -/
theorem calls_bound (sR fR : Nat → AttemptOutcome) :
    ∀ fuel a nF,
      callsOn .stored (loopTrace sR fR fuel a nF) ≤ fuel ∧
      callsOn .fresh (loopTrace sR fR fuel a nF) ≤ fuel ∧
      totalCalls (loopTrace sR fR fuel a nF) ≤ 2 * fuel := by
  intro fuel
  induction fuel with
  | zero => intro a nF; simp [loopTrace, callsOn, totalCalls]
  | succ fuel ih =>
    intro a nF
    rcases h : sR a with _ | _ | _ | _ <;>
      rcases hf : fR nF with _ | _ | _ | _ <;>
        simp only [loopTrace, h, hf] <;>
          (try split) <;>
          · have h1 := ih (a + 1) nF
            have h2 := ih (a + 1) (nF + 1)
            simp only [callsOn, totalCalls, List.countP_cons, List.countP_nil] at *
            simp at *
            try omega

/-- Backoff durations, generalized over the starting attempt index:
in a loop run entered at attempt index `a`, the j-th sleep (0-based)
lasts `60 * 2 ^ (a + j)` seconds.  Both sleep sites (lines 54 and 79)
compute `wait_time = 60 * (2 ** attempt)`, and `attempt` has increased
by exactly the number of sleeps already performed. -/
theorem sleepDurs_get_aux (sR fR : Nat → AttemptOutcome) :
    ∀ fuel a nF j d,
      (sleepDurs (loopTrace sR fR fuel a nF))[j]? = some d →
      d = 60 * 2 ^ (a + j) := by
  intro fuel
  induction fuel with
  | zero => intro a nF j d h; simp [loopTrace, sleepDurs] at h
  | succ fuel ih =>
    intro a nF j d h
    rcases h0 : sR a with _ | _ | _ | _
    · simp [loopTrace, h0, sleepDurs, sleepDur?] at h
    · by_cases ha : a < maxRateLimitRetries - 1
      · simp [loopTrace, h0, ha, sleepDurs, sleepDur?] at h
        rcases j with _ | j
        · simp at h
          rw [Nat.add_zero]
          exact h.symm
        · simp at h
          rw [ih (a + 1) nF j d h]
          ring
      · simp [loopTrace, h0, ha, sleepDurs, sleepDur?] at h
    · rcases hf : fR nF with _ | _ | _ | _
      · simp [loopTrace, h0, hf, sleepDurs, sleepDur?] at h
      · by_cases ha : a < maxRateLimitRetries - 1
        · simp [loopTrace, h0, hf, ha, sleepDurs, sleepDur?] at h
          rcases j with _ | j
          · simp at h
            rw [Nat.add_zero]
            exact h.symm
          · simp at h
            rw [ih (a + 1) (nF + 1) j d h]
            ring
        · simp [loopTrace, h0, hf, ha, sleepDurs, sleepDur?] at h
      · simp [loopTrace, h0, hf, sleepDurs, sleepDur?] at h
      · simp [loopTrace, h0, hf, sleepDurs, sleepDur?] at h
    · rcases hf : fR nF with _ | _ | _ | _
      · simp [loopTrace, h0, hf, sleepDurs, sleepDur?] at h
      · by_cases ha : a < maxRateLimitRetries - 1
        · simp [loopTrace, h0, hf, ha, sleepDurs, sleepDur?] at h
          rcases j with _ | j
          · simp at h
            rw [Nat.add_zero]
            exact h.symm
          · simp at h
            rw [ih (a + 1) (nF + 1) j d h]
            ring
        · simp [loopTrace, h0, hf, ha, sleepDurs, sleepDur?] at h
      · simp [loopTrace, h0, hf, sleepDurs, sleepDur?] at h
      · simp [loopTrace, h0, hf, sleepDurs, sleepDur?] at h

/-- Across one run of the loop entered at attempt index `a`, at most
`maxRateLimitRetries - 1 - a` backoff sleeps happen in total, on both
paths combined: both sleep sites are guarded by
`attempt < max_rate_limit_retries - 1` (lines 53 and 78) and `attempt`
increments on every `continue`. -/
theorem sleeps_total_bound (sR fR : Nat → AttemptOutcome) :
    ∀ fuel a nF,
      (sleepDurs (loopTrace sR fR fuel a nF)).length ≤
        maxRateLimitRetries - 1 - a := by
  intro fuel
  induction fuel with
  | zero => intro a nF; simp [loopTrace, sleepDurs]
  | succ fuel ih =>
    intro a nF
    rcases h0 : sR a with _ | _ | _ | _ <;>
      rcases hf : fR nF with _ | _ | _ | _ <;>
        simp only [loopTrace, h0, hf] <;>
          (try split) <;>
          · have h1 := ih (a + 1) nF
            have h2 := ih (a + 1) (nF + 1)
            simp [sleepDurs, sleepDur?, maxRateLimitRetries] at *
            try omega

/-- Congruence helper: equal attempt indices give equal backoff sleeps. -/
theorem sleep_some_congr (x y : Nat) (h : x = y) :
    (some (LoginEvent.sleep (60 * 2 ^ x)) : Option LoginEvent) =
      some (.sleep (60 * 2 ^ y)) := by rw [h]

/-- After every rate-limited call event in the trace, either the trace
ends (the `return 1` of lines 60/85) or the very next event is the
backoff sleep, whose duration is `60 * 2 ^ attempt`; the current value
of `attempt` equals the starting index `a` plus the number of sleeps
already performed before that point of the trace. -/
theorem rl_then_sleep_aux (sR fR : Nat → AttemptOutcome) :
    ∀ fuel a nF i p,
      (loopTrace sR fR fuel a nF)[i]? = some (.call p .rateLimited) →
      (loopTrace sR fR fuel a nF)[i + 1]? = none ∨
      (loopTrace sR fR fuel a nF)[i + 1]? =
        some (.sleep (60 * 2 ^
          (a + (sleepDurs ((loopTrace sR fR fuel a nF).take i)).length))) := by
  intro fuel
  induction fuel with
  | zero => intro a nF i p h; simp [loopTrace] at h
  | succ fuel ih =>
    intro a nF i p h
    rcases h0 : sR a with _ | _ | _ | _
    · have htr : loopTrace sR fR (fuel + 1) a nF = [.call .stored .success] := by
        simp [loopTrace, h0]
      rw [htr] at h
      rcases i with _ | i <;> simp at h
    · by_cases ha : a < maxRateLimitRetries - 1
      · have htr : loopTrace sR fR (fuel + 1) a nF =
            .call .stored .rateLimited :: .sleep (60 * 2 ^ a) ::
              loopTrace sR fR fuel (a + 1) nF := by
          simp [loopTrace, h0, ha]
        rw [htr] at h ⊢
        rcases i with _ | _ | i
        · right; simp [sleepDurs]
        · simp at h
        · have h' : (loopTrace sR fR fuel (a + 1) nF)[i]? =
              some (.call p .rateLimited) := by simpa using h
          rcases ih (a + 1) nF i p h' with h1 | h1
          · left; simpa using h1
          · right
            simp only [List.getElem?_cons_succ, List.take_succ_cons]
            rw [h1]
            exact sleep_some_congr _ _ (by simp [sleepDurs, sleepDur?] <;> omega)
      · have htr : loopTrace sR fR (fuel + 1) a nF =
            [.call .stored .rateLimited] := by
          simp [loopTrace, h0, ha]
        rw [htr] at h ⊢
        rcases i with _ | i
        · left; simp
        · simp at h
    · rcases hf : fR nF with _ | _ | _ | _
      · have htr : loopTrace sR fR (fuel + 1) a nF =
            [.call .stored .mfaRequired, .call .fresh .success] := by
          simp [loopTrace, h0, hf]
        rw [htr] at h
        rcases i with _ | _ | i <;> simp at h
      · by_cases ha : a < maxRateLimitRetries - 1
        · have htr : loopTrace sR fR (fuel + 1) a nF =
              .call .stored .mfaRequired :: .call .fresh .rateLimited ::
                .sleep (60 * 2 ^ a) :: loopTrace sR fR fuel (a + 1) (nF + 1) := by
            simp [loopTrace, h0, hf, ha]
          rw [htr] at h ⊢
          rcases i with _ | _ | _ | i
          · simp at h
          · right; simp [sleepDurs, sleepDur?]
          · simp at h
          · have h' : (loopTrace sR fR fuel (a + 1) (nF + 1))[i]? =
                some (.call p .rateLimited) := by simpa using h
            rcases ih (a + 1) (nF + 1) i p h' with h1 | h1
            · left; simpa using h1
            · right
              simp only [List.getElem?_cons_succ, List.take_succ_cons]
              rw [h1]
              exact sleep_some_congr _ _ (by simp [sleepDurs, sleepDur?] <;> omega)
        · have htr : loopTrace sR fR (fuel + 1) a nF =
              [.call .stored .mfaRequired, .call .fresh .rateLimited] := by
            simp [loopTrace, h0, hf, ha]
          rw [htr] at h ⊢
          rcases i with _ | _ | i
          · simp at h
          · left; simp
          · simp at h
      · have htr : loopTrace sR fR (fuel + 1) a nF =
            [.call .stored .mfaRequired, .call .fresh .mfaRequired] := by
          simp [loopTrace, h0, hf]
        rw [htr] at h
        rcases i with _ | _ | i <;> simp at h
      · have htr : loopTrace sR fR (fuel + 1) a nF =
            [.call .stored .mfaRequired, .call .fresh .otherFailure] := by
          simp [loopTrace, h0, hf]
        rw [htr] at h
        rcases i with _ | _ | i <;> simp at h
    · rcases hf : fR nF with _ | _ | _ | _
      · have htr : loopTrace sR fR (fuel + 1) a nF =
            [.call .stored .otherFailure, .call .fresh .success] := by
          simp [loopTrace, h0, hf]
        rw [htr] at h
        rcases i with _ | _ | i <;> simp at h
      · by_cases ha : a < maxRateLimitRetries - 1
        · have htr : loopTrace sR fR (fuel + 1) a nF =
              .call .stored .otherFailure :: .call .fresh .rateLimited ::
                .sleep (60 * 2 ^ a) :: loopTrace sR fR fuel (a + 1) (nF + 1) := by
            simp [loopTrace, h0, hf, ha]
          rw [htr] at h ⊢
          rcases i with _ | _ | _ | i
          · simp at h
          · right; simp [sleepDurs, sleepDur?]
          · simp at h
          · have h' : (loopTrace sR fR fuel (a + 1) (nF + 1))[i]? =
                some (.call p .rateLimited) := by simpa using h
            rcases ih (a + 1) (nF + 1) i p h' with h1 | h1
            · left; simpa using h1
            · right
              simp only [List.getElem?_cons_succ, List.take_succ_cons]
              rw [h1]
              exact sleep_some_congr _ _ (by simp [sleepDurs, sleepDur?] <;> omega)
        · have htr : loopTrace sR fR (fuel + 1) a nF =
              [.call .stored .otherFailure, .call .fresh .rateLimited] := by
            simp [loopTrace, h0, hf, ha]
          rw [htr] at h ⊢
          rcases i with _ | _ | i
          · simp at h
          · left; simp
          · simp at h
      · have htr : loopTrace sR fR (fuel + 1) a nF =
            [.call .stored .otherFailure, .call .fresh .mfaRequired] := by
          simp [loopTrace, h0, hf]
        rw [htr] at h
        rcases i with _ | _ | i <;> simp at h
      · have htr : loopTrace sR fR (fuel + 1) a nF =
            [.call .stored .otherFailure, .call .fresh .otherFailure] := by
          simp [loopTrace, h0, hf]
        rw [htr] at h
        rcases i with _ | _ | i <;> simp at h

/-- The event right after a backoff sleep, when there is one, is always
a stored-session login call: both `continue` statements (lines 57 and
82) restart the loop body, whose first action is the saved-session
login of line 40. -/
theorem sleep_then_stored_aux (sR fR : Nat → AttemptOutcome) :
    ∀ fuel a nF i d e,
      (loopTrace sR fR fuel a nF)[i]? = some (.sleep d) →
      (loopTrace sR fR fuel a nF)[i + 1]? = some e →
      ∃ o, e = .call .stored o := by
  intro fuel
  induction fuel with
  | zero => intro a nF i d e h _; simp [loopTrace] at h
  | succ fuel ih =>
    intro a nF i d e h h2
    rcases h0 : sR a with _ | _ | _ | _
    · have htr : loopTrace sR fR (fuel + 1) a nF = [.call .stored .success] := by
        simp [loopTrace, h0]
      rw [htr] at h
      rcases i with _ | i <;> simp at h
    · by_cases ha : a < maxRateLimitRetries - 1
      · have htr : loopTrace sR fR (fuel + 1) a nF =
            .call .stored .rateLimited :: .sleep (60 * 2 ^ a) ::
              loopTrace sR fR fuel (a + 1) nF := by
          simp [loopTrace, h0, ha]
        rw [htr] at h h2
        rcases i with _ | _ | i
        · simp at h
        · have h2' : (loopTrace sR fR fuel (a + 1) nF)[0]? = some e := by
            simpa using h2
          exact loopTrace_get_zero sR fR fuel (a + 1) nF e h2'
        · have h' : (loopTrace sR fR fuel (a + 1) nF)[i]? = some (.sleep d) := by
            simpa using h
          have h2' : (loopTrace sR fR fuel (a + 1) nF)[i + 1]? = some e := by
            simpa using h2
          exact ih (a + 1) nF i d e h' h2'
      · have htr : loopTrace sR fR (fuel + 1) a nF =
            [.call .stored .rateLimited] := by
          simp [loopTrace, h0, ha]
        rw [htr] at h
        rcases i with _ | i <;> simp at h
    · rcases hf : fR nF with _ | _ | _ | _
      · have htr : loopTrace sR fR (fuel + 1) a nF =
            [.call .stored .mfaRequired, .call .fresh .success] := by
          simp [loopTrace, h0, hf]
        rw [htr] at h
        rcases i with _ | _ | i <;> simp at h
      · by_cases ha : a < maxRateLimitRetries - 1
        · have htr : loopTrace sR fR (fuel + 1) a nF =
              .call .stored .mfaRequired :: .call .fresh .rateLimited ::
                .sleep (60 * 2 ^ a) :: loopTrace sR fR fuel (a + 1) (nF + 1) := by
            simp [loopTrace, h0, hf, ha]
          rw [htr] at h h2
          rcases i with _ | _ | _ | i
          · simp at h
          · simp at h
          · have h2' : (loopTrace sR fR fuel (a + 1) (nF + 1))[0]? = some e := by
              simpa using h2
            exact loopTrace_get_zero sR fR fuel (a + 1) (nF + 1) e h2'
          · have h' : (loopTrace sR fR fuel (a + 1) (nF + 1))[i]? =
                some (.sleep d) := by simpa using h
            have h2' : (loopTrace sR fR fuel (a + 1) (nF + 1))[i + 1]? = some e := by
              simpa using h2
            exact ih (a + 1) (nF + 1) i d e h' h2'
        · have htr : loopTrace sR fR (fuel + 1) a nF =
              [.call .stored .mfaRequired, .call .fresh .rateLimited] := by
            simp [loopTrace, h0, hf, ha]
          rw [htr] at h
          rcases i with _ | _ | i <;> simp at h
      · have htr : loopTrace sR fR (fuel + 1) a nF =
            [.call .stored .mfaRequired, .call .fresh .mfaRequired] := by
          simp [loopTrace, h0, hf]
        rw [htr] at h
        rcases i with _ | _ | i <;> simp at h
      · have htr : loopTrace sR fR (fuel + 1) a nF =
            [.call .stored .mfaRequired, .call .fresh .otherFailure] := by
          simp [loopTrace, h0, hf]
        rw [htr] at h
        rcases i with _ | _ | i <;> simp at h
    · rcases hf : fR nF with _ | _ | _ | _
      · have htr : loopTrace sR fR (fuel + 1) a nF =
            [.call .stored .otherFailure, .call .fresh .success] := by
          simp [loopTrace, h0, hf]
        rw [htr] at h
        rcases i with _ | _ | i <;> simp at h
      · by_cases ha : a < maxRateLimitRetries - 1
        · have htr : loopTrace sR fR (fuel + 1) a nF =
              .call .stored .otherFailure :: .call .fresh .rateLimited ::
                .sleep (60 * 2 ^ a) :: loopTrace sR fR fuel (a + 1) (nF + 1) := by
            simp [loopTrace, h0, hf, ha]
          rw [htr] at h h2
          rcases i with _ | _ | _ | i
          · simp at h
          · simp at h
          · have h2' : (loopTrace sR fR fuel (a + 1) (nF + 1))[0]? = some e := by
              simpa using h2
            exact loopTrace_get_zero sR fR fuel (a + 1) (nF + 1) e h2'
          · have h' : (loopTrace sR fR fuel (a + 1) (nF + 1))[i]? =
                some (.sleep d) := by simpa using h
            have h2' : (loopTrace sR fR fuel (a + 1) (nF + 1))[i + 1]? = some e := by
              simpa using h2
            exact ih (a + 1) (nF + 1) i d e h' h2'
        · have htr : loopTrace sR fR (fuel + 1) a nF =
              [.call .stored .otherFailure, .call .fresh .rateLimited] := by
            simp [loopTrace, h0, hf, ha]
          rw [htr] at h
          rcases i with _ | _ | i <;> simp at h
      · have htr : loopTrace sR fR (fuel + 1) a nF =
            [.call .stored .otherFailure, .call .fresh .mfaRequired] := by
          simp [loopTrace, h0, hf]
        rw [htr] at h
        rcases i with _ | _ | i <;> simp at h
      · have htr : loopTrace sR fR (fuel + 1) a nF =
            [.call .stored .otherFailure, .call .fresh .otherFailure] := by
          simp [loopTrace, h0, hf]
        rw [htr] at h
        rcases i with _ | _ | i <;> simp at h

/-- A fresh-login call that raises `RequireMFAException` ends the loop
at once: it is the last event of the trace and the exception propagates
out of the loop (`uncaughtMFA`), to be caught by the outer handler of
line 98.  A stored-session `mfaRequired` is different: it is swallowed
by the inner `except Exception` of line 62. -/
theorem fresh_mfa_last_aux (sR fR : Nat → AttemptOutcome) :
    ∀ fuel a nF i,
      (loopTrace sR fR fuel a nF)[i]? = some (.call .fresh .mfaRequired) →
      i + 1 = (loopTrace sR fR fuel a nF).length ∧
      loopExit sR fR fuel a nF = .uncaughtMFA := by
  intro fuel
  induction fuel with
  | zero => intro a nF i h; simp [loopTrace] at h
  | succ fuel ih =>
    intro a nF i h
    rcases h0 : sR a with _ | _ | _ | _
    · have htr : loopTrace sR fR (fuel + 1) a nF = [.call .stored .success] := by
        simp [loopTrace, h0]
      rw [htr] at h
      rcases i with _ | i <;> simp at h
    · by_cases ha : a < maxRateLimitRetries - 1
      · have htr : loopTrace sR fR (fuel + 1) a nF =
            .call .stored .rateLimited :: .sleep (60 * 2 ^ a) ::
              loopTrace sR fR fuel (a + 1) nF := by
          simp [loopTrace, h0, ha]
        rw [htr] at h
        rcases i with _ | _ | i
        · simp at h
        · simp at h
        · have h' : (loopTrace sR fR fuel (a + 1) nF)[i]? =
              some (.call .fresh .mfaRequired) := by simpa using h
          rcases ih (a + 1) nF i h' with ⟨hl, he⟩
          constructor
          · rw [htr]
            simp only [List.length_cons]
            omega
          · rw [show loopExit sR fR (fuel + 1) a nF =
                loopExit sR fR fuel (a + 1) nF by simp [loopExit, h0, ha]]
            exact he
      · have htr : loopTrace sR fR (fuel + 1) a nF =
            [.call .stored .rateLimited] := by
          simp [loopTrace, h0, ha]
        rw [htr] at h
        rcases i with _ | i <;> simp at h
    · rcases hf : fR nF with _ | _ | _ | _
      · have htr : loopTrace sR fR (fuel + 1) a nF =
            [.call .stored .mfaRequired, .call .fresh .success] := by
          simp [loopTrace, h0, hf]
        rw [htr] at h
        rcases i with _ | _ | i <;> simp at h
      · by_cases ha : a < maxRateLimitRetries - 1
        · have htr : loopTrace sR fR (fuel + 1) a nF =
              .call .stored .mfaRequired :: .call .fresh .rateLimited ::
                .sleep (60 * 2 ^ a) :: loopTrace sR fR fuel (a + 1) (nF + 1) := by
            simp [loopTrace, h0, hf, ha]
          rw [htr] at h
          rcases i with _ | _ | _ | i
          · simp at h
          · simp at h
          · simp at h
          · have h' : (loopTrace sR fR fuel (a + 1) (nF + 1))[i]? =
                some (.call .fresh .mfaRequired) := by simpa using h
            rcases ih (a + 1) (nF + 1) i h' with ⟨hl, he⟩
            constructor
            · rw [htr]
              simp only [List.length_cons]
              omega
            · rw [show loopExit sR fR (fuel + 1) a nF =
                  loopExit sR fR fuel (a + 1) (nF + 1) by simp [loopExit, h0, hf, ha]]
              exact he
        · have htr : loopTrace sR fR (fuel + 1) a nF =
              [.call .stored .mfaRequired, .call .fresh .rateLimited] := by
            simp [loopTrace, h0, hf, ha]
          rw [htr] at h
          rcases i with _ | _ | i <;> simp at h
      · have htr : loopTrace sR fR (fuel + 1) a nF =
            [.call .stored .mfaRequired, .call .fresh .mfaRequired] := by
          simp [loopTrace, h0, hf]
        rw [htr] at h
        rcases i with _ | _ | i
        · simp at h
        · refine ⟨by rw [htr]; rfl, by simp [loopExit, h0, hf]⟩
        · simp at h
      · have htr : loopTrace sR fR (fuel + 1) a nF =
            [.call .stored .mfaRequired, .call .fresh .otherFailure] := by
          simp [loopTrace, h0, hf]
        rw [htr] at h
        rcases i with _ | _ | i <;> simp at h
    · rcases hf : fR nF with _ | _ | _ | _
      · have htr : loopTrace sR fR (fuel + 1) a nF =
            [.call .stored .otherFailure, .call .fresh .success] := by
          simp [loopTrace, h0, hf]
        rw [htr] at h
        rcases i with _ | _ | i <;> simp at h
      · by_cases ha : a < maxRateLimitRetries - 1
        · have htr : loopTrace sR fR (fuel + 1) a nF =
              .call .stored .otherFailure :: .call .fresh .rateLimited ::
                .sleep (60 * 2 ^ a) :: loopTrace sR fR fuel (a + 1) (nF + 1) := by
            simp [loopTrace, h0, hf, ha]
          rw [htr] at h
          rcases i with _ | _ | _ | i
          · simp at h
          · simp at h
          · simp at h
          · have h' : (loopTrace sR fR fuel (a + 1) (nF + 1))[i]? =
                some (.call .fresh .mfaRequired) := by simpa using h
            rcases ih (a + 1) (nF + 1) i h' with ⟨hl, he⟩
            constructor
            · rw [htr]
              simp only [List.length_cons]
              omega
            · rw [show loopExit sR fR (fuel + 1) a nF =
                  loopExit sR fR fuel (a + 1) (nF + 1) by simp [loopExit, h0, hf, ha]]
              exact he
        · have htr : loopTrace sR fR (fuel + 1) a nF =
              [.call .stored .otherFailure, .call .fresh .rateLimited] := by
            simp [loopTrace, h0, hf, ha]
          rw [htr] at h
          rcases i with _ | _ | i <;> simp at h
      · have htr : loopTrace sR fR (fuel + 1) a nF =
            [.call .stored .otherFailure, .call .fresh .mfaRequired] := by
          simp [loopTrace, h0, hf]
        rw [htr] at h
        rcases i with _ | _ | i
        · simp at h
        · refine ⟨by rw [htr]; rfl, by simp [loopExit, h0, hf]⟩
        · simp at h
      · have htr : loopTrace sR fR (fuel + 1) a nF =
            [.call .stored .otherFailure, .call .fresh .otherFailure] := by
          simp [loopTrace, h0, hf]
        rw [htr] at h
        rcases i with _ | _ | i <;> simp at h

/-! ## Claims -/

/-- C1, counterexample. — The claim "once any login attempt yields
MFARequired, no further automatic login attempt of the same or any
other path is made" is false on the code: when the STORED-session login
raises `RequireMFAException`, the `except Exception` handler of line 62
catches it and immediately performs a fresh login attempt.  Concretely,
with the stored path answering `mfaRequired` and the fresh path
succeeding, the trace contains a fresh login call right after the
MFA-required outcome. -/
theorem c1_mfa_not_terminal_counterexample :
    ¬ mfaTerminalClaim envAllMfa envAllSuccess := by
  intro h
  exact h 0 1 .stored .fresh .success (by decide) (by decide) (by decide)

/-- C1 (amended). — Only a FRESH-login `RequireMFAException` is
terminal: if the trace contains a fresh login call with outcome
`mfaRequired`, it is the last event of the trace (no further automatic
login attempt of any path is made), the loop exits by propagating the
MFA exception, and `main` reports it exactly once by returning 1
through the handler of lines 98-101.  A stored-session `mfaRequired`
instead falls through to one fresh attempt (line 62). -/
theorem c1_fresh_mfa_terminal (sR fR : Nat → AttemptOutcome) (i : Nat)
    (h : (loopTrace sR fR maxRateLimitRetries 0 0)[i]? =
      some (.call .fresh .mfaRequired)) :
    i + 1 = (loopTrace sR fR maxRateLimitRetries 0 0).length ∧
    loopExit sR fR maxRateLimitRetries 0 0 = .uncaughtMFA ∧
    mainExit (some "user") (some "pw") none sR fR true = 1 := by
  rcases fresh_mfa_last_aux sR fR maxRateLimitRetries 0 0 i h with ⟨h1, h2⟩
  have ht : (pyTruthy (some "user") && pyTruthy (some "pw")) = true := by decide
  refine ⟨h1, h2, ?_⟩
  simp [mainExit, ht, h2]

/-- C1 witness. — The amended theorem applied to the environment
where the stored path fails with a generic error and the fresh path
demands MFA. -/
theorem c1_fresh_mfa_terminal_witness :
    (loopTrace envAllOther envAllMfa maxRateLimitRetries 0 0)[1]? =
      some (.call .fresh .mfaRequired) ∧
    (1 + 1 = (loopTrace envAllOther envAllMfa maxRateLimitRetries 0 0).length ∧
     loopExit envAllOther envAllMfa maxRateLimitRetries 0 0 = .uncaughtMFA ∧
     mainExit (some "user") (some "pw") none envAllOther envAllMfa true = 1) :=
  ⟨by decide, c1_fresh_mfa_terminal envAllOther envAllMfa 1 (by decide)⟩

/-- C2, counterexample. — The retry counters are NOT independent: in
the run where the stored path is rate limited once and then fails
generically while the fresh path is always rate limited, the sleep
following the FIRST fresh-path rate limit lasts 120 s
(`60 * 2 ** attempt` with the shared loop counter at 1), not the
`60 * 2 ^ 0 = 60` s an independent fresh counter reset on the path
change would give. -/
theorem c2_not_independent_counterexample :
    ¬ independentFreshBudgetClaim envRLThenOther envAllRL := by
  intro h
  exact absurd (h 3 120 (by decide) (by decide)) (by decide)

/-- C2 (amended). — Both paths share the single loop counter
`attempt`, which is never reset: every backoff sleep on either path
consumes the same budget, so at most `max_rate_limit_retries - 1 = 2`
backoff sleeps happen in total across the stored-session and
fresh-login paths combined (an independent budget per path would allow
four). -/
theorem c2_shared_backoff_budget (sR fR : Nat → AttemptOutcome) :
    (sleepDurs (loopTrace sR fR maxRateLimitRetries 0 0)).length ≤
      maxRateLimitRetries - 1 := by
  simpa using sleeps_total_bound sR fR maxRateLimitRetries 0 0

/-- C3, counterexample. — After a fresh-login rate limit and its
backoff sleep the loop does NOT retry the fresh path: `continue`
(line 82) restarts the loop body at the stored-session login of
line 40.  Concretely, with the stored path failing generically once and
then succeeding, and the fresh path rate limited, the event after the
backoff sleep is a stored-session call. -/
theorem c3_not_fresh_retry_counterexample :
    ¬ freshRetryStaysFreshClaim envOtherThenSuccess envAllRL := by
  intro h
  rcases h 1 60 (.call .stored .success) (by decide) (by decide) (by decide)
    with ⟨o, ho⟩
  simp at ho

/-- C3 (amended). — Whenever a fresh-login attempt fails with
`RateLimitError` and the budget is not exhausted, the orchestrator
sleeps the computed delay and then retries the STORED-SESSION path:
the login call following the backoff sleep, when one exists, is always
on the stored path; the fresh path is reattempted only if that stored
attempt again fails with a non-rate-limit error. -/
theorem c3_backoff_then_stored_path (sR fR : Nat → AttemptOutcome)
    (i d : Nat) (e : LoginEvent)
    (h1 : (loopTrace sR fR maxRateLimitRetries 0 0)[i]? =
      some (.call .fresh .rateLimited))
    (h2 : (loopTrace sR fR maxRateLimitRetries 0 0)[i + 1]? = some (.sleep d))
    (h3 : (loopTrace sR fR maxRateLimitRetries 0 0)[i + 1 + 1]? = some e) :
    ∃ o, e = .call .stored o :=
  sleep_then_stored_aux sR fR maxRateLimitRetries 0 0 (i + 1) d e h2 h3

/-- C3 witness. — The amended theorem applied to the environment of
the counterexample: the call after the fresh-path backoff is the
stored-session call that succeeds. -/
theorem c3_backoff_then_stored_path_witness :
    (loopTrace envOtherThenSuccess envAllRL maxRateLimitRetries 0 0)[1]? =
      some (.call .fresh .rateLimited) ∧
    (loopTrace envOtherThenSuccess envAllRL maxRateLimitRetries 0 0)[1 + 1]? =
      some (.sleep 60) ∧
    (loopTrace envOtherThenSuccess envAllRL maxRateLimitRetries 0 0)[1 + 1 + 1]? =
      some (.call .stored .success) ∧
    ∃ o, (LoginEvent.call .stored .success) = LoginEvent.call .stored o :=
  ⟨by decide, by decide, by decide,
   c3_backoff_then_stored_path envOtherThenSuccess envAllRL 1 60
     (.call .stored .success) (by decide) (by decide) (by decide)⟩

/-- C4. — The j-th backoff sleep of a run (0-based, over both paths:
`attempt` equals the number of sleeps already performed) lasts
`60 * 2 ^ j` seconds — `wait_time = 60 * (2 ** attempt)`, identical at
both sleep sites (lines 54 and 79). -/
theorem c4_backoff_durations (sR fR : Nat → AttemptOutcome) (j d : Nat)
    (h : (sleepDurs (loopTrace sR fR maxRateLimitRetries 0 0))[j]? = some d) :
    d = 60 * 2 ^ j := by
  simpa using sleepDurs_get_aux sR fR maxRateLimitRetries 0 0 j d h

/-- C4 witness. — In the all-rate-limited run the second sleep (index
1) lasts `120 = 60 * 2 ^ 1` seconds. -/
theorem c4_backoff_durations_witness :
    (sleepDurs (loopTrace envAllRL envAllSuccess maxRateLimitRetries 0 0))[1]? =
      some 120 ∧ 120 = 60 * 2 ^ 1 :=
  ⟨by decide, c4_backoff_durations envAllRL envAllSuccess 1 120 (by decide)⟩

/-- C5. — If the remote service rate-limits every login attempt, the
loop ends in the `return 1` of rate-limit exhaustion (`GaveUp`),
performs exactly `max_rate_limit_retries - 1 = 2` backoff sleeps (60 s
and 120 s; no sleep follows the final failed attempt, line 58-60), no
successful call ever appears in the trace, and `main` returns the
failure value 1 — `Success` is never reported. -/
theorem c5_all_rate_limited_gives_up (sR fR : Nat → AttemptOutcome)
    (hS : ∀ n, sR n = .rateLimited) (hF : ∀ n, fR n = .rateLimited) :
    loopExit sR fR maxRateLimitRetries 0 0 = .returnOne ∧
    sleepDurs (loopTrace sR fR maxRateLimitRetries 0 0) = [60, 120] ∧
    (∀ p, LoginEvent.call p .success ∉ loopTrace sR fR maxRateLimitRetries 0 0) ∧
    mainExit (some "user") (some "pw") none sR fR true = 1 := by
  have h0 := hS 0
  have h1 := hS 1
  have h2 := hS 2
  have hexit : loopExit sR fR maxRateLimitRetries 0 0 = .returnOne := by
    simp [loopExit, maxRateLimitRetries, h0, h1, h2]
  have ht : (pyTruthy (some "user") && pyTruthy (some "pw")) = true := by decide
  refine ⟨hexit, ?_, ?_, ?_⟩
  · simp [loopTrace, sleepDurs, sleepDur?, maxRateLimitRetries, h0, h1, h2]
  · intro p hp
    simp [loopTrace, maxRateLimitRetries, h0, h1, h2] at hp
  · simp [mainExit, ht, hexit]

/-- C5 witness. — The theorem at the all-rate-limited environment. -/
theorem c5_all_rate_limited_gives_up_witness :
    loopExit envAllRL envAllRL maxRateLimitRetries 0 0 = .returnOne ∧
    sleepDurs (loopTrace envAllRL envAllRL maxRateLimitRetries 0 0) = [60, 120] ∧
    (∀ p, LoginEvent.call p .success ∉
      loopTrace envAllRL envAllRL maxRateLimitRetries 0 0) ∧
    mainExit (some "user") (some "pw") none envAllRL envAllRL true = 1 :=
  c5_all_rate_limited_gives_up envAllRL envAllRL (fun _ => rfl) (fun _ => rfl)

/-- C6. — A rate-limited outcome is never followed by a successful
login call without an intervening backoff sleep of the policy-computed
duration for the attempt index at the rate limit (that index equals the
number of sleeps already performed). -/
theorem c6_no_success_without_backoff (sR fR : Nat → AttemptOutcome)
    (i j : Nat) (p q : LoginPath) (hij : i < j)
    (hi : (loopTrace sR fR maxRateLimitRetries 0 0)[i]? =
      some (.call p .rateLimited))
    (hj : (loopTrace sR fR maxRateLimitRetries 0 0)[j]? =
      some (.call q .success)) :
    ∃ k, i < k ∧ k < j ∧
      (loopTrace sR fR maxRateLimitRetries 0 0)[k]? =
        some (.sleep (60 * 2 ^
          (sleepDurs ((loopTrace sR fR maxRateLimitRetries 0 0).take i)).length)) := by
  rcases rl_then_sleep_aux sR fR maxRateLimitRetries 0 0 i p hi with hn | hs
  · exfalso
    have hlen : (loopTrace sR fR maxRateLimitRetries 0 0).length ≤ i + 1 :=
      List.getElem?_eq_none_iff.mp hn
    have hj' : (loopTrace sR fR maxRateLimitRetries 0 0)[j]? = none :=
      List.getElem?_eq_none_iff.mpr (by omega)
    rw [hj'] at hj
    cases hj
  · have hne : j ≠ i + 1 := by
      intro hEq
      rw [hEq, hs] at hj
      simp at hj
    exact ⟨i + 1, Nat.lt_succ_self i, by omega, by simpa using hs⟩

/-- C6 witness. — In the run of scenario 2 the rate limit at
position 0 and the success at position 4 have the 60 s sleep at
position 1 between them. -/
theorem c6_no_success_without_backoff_witness :
    (0 : Nat) < 4 ∧
    (loopTrace envRLRLSuccess envAllRL maxRateLimitRetries 0 0)[0]? =
      some (.call .stored .rateLimited) ∧
    (loopTrace envRLRLSuccess envAllRL maxRateLimitRetries 0 0)[4]? =
      some (.call .stored .success) ∧
    ∃ k, 0 < k ∧ k < 4 ∧
      (loopTrace envRLRLSuccess envAllRL maxRateLimitRetries 0 0)[k]? =
        some (.sleep (60 * 2 ^
          (sleepDurs ((loopTrace envRLRLSuccess envAllRL
            maxRateLimitRetries 0 0).take 0)).length)) :=
  ⟨by decide, by decide, by decide,
   c6_no_success_without_backoff envRLRLSuccess envAllRL 0 4 .stored .stored
     (by decide) (by decide) (by decide)⟩

/-- C7. — Scenario 2: the stored-session attempt is rate limited
twice and succeeds on the third try (whatever the fresh path would
answer).  The loop breaks with a login, the trace is exactly two
(rate-limit, sleep) rounds of 60 s and 120 s followed by the successful
stored call, and `main` returns 0. -/
theorem c7_stored_rl_twice_then_success (fR : Nat → AttemptOutcome) :
    loopExit envRLRLSuccess fR maxRateLimitRetries 0 0 = .loggedIn ∧
    loopTrace envRLRLSuccess fR maxRateLimitRetries 0 0 =
      [.call .stored .rateLimited, .sleep 60,
       .call .stored .rateLimited, .sleep 120,
       .call .stored .success] ∧
    sleepDurs (loopTrace envRLRLSuccess fR maxRateLimitRetries 0 0) = [60, 120] ∧
    mainExit (some "user") (some "pw") none envRLRLSuccess fR true = 0 :=
  ⟨rfl, rfl, rfl, rfl⟩

/-- C8. — For every environment, the loop performs at most 3 stored-
session login calls, at most 3 fresh login calls, and at most 6 remote
login calls in total before it terminates. -/
theorem c8_total_login_calls_bounded (sR fR : Nat → AttemptOutcome) :
    callsOn .stored (loopTrace sR fR maxRateLimitRetries 0 0) ≤ 3 ∧
    callsOn .fresh (loopTrace sR fR maxRateLimitRetries 0 0) ≤ 3 ∧
    totalCalls (loopTrace sR fR maxRateLimitRetries 0 0) ≤ 6 := by
  simpa [maxRateLimitRetries] using calls_bound sR fR maxRateLimitRetries 0 0

/-- C9 (code bug). — `main` does classify every run into exactly one
terminal outcome and returns 1 on each failure, but the `__main__`
block (lines 126-131) never calls `sys.exit(exit_code)`: it only
prints a message and the script ends, so the Python process exits with
status 0 even when `main` returned the failure value 1.  Evaluated at
the failing input where every login attempt is rate limited: `main`
returns 1 (a GaveUp failure), the block prints the failure message,
and the process exit status is 0 — the same status a successful run
gets, contradicting the claimed success-0 / failure-nonzero mapping. -/
theorem c9_exit_status_not_propagated :
    mainExit (some "user") (some "pw") none envAllRL envAllRL true = 1 ∧
    scriptRun (mainExit (some "user") (some "pw") none envAllRL envAllRL true) =
      ("Main failed to complete.", 0) ∧
    (scriptRun 0).2 = (scriptRun 1).2 := by
  decide

/-- C10. — If the identity (`MONARCH_EMAIL`) or the secret
(`MONARCH_PASS`) is absent, `main` returns 1 immediately with zero
remote login calls and zero sleeps (empty trace); the MFA seed being
absent does not prevent the login attempt: with truthy credentials and
`MONARCH_MFA` unset the first event is still a stored-session login
call. -/
theorem c10_missing_credentials_no_attempt (em pw mfa : Option String)
    (sR fR : Nat → AttemptOutcome) (acc : Bool) :
    mainExit none pw mfa sR fR acc = 1 ∧
    mainTrace none pw mfa sR fR = [] ∧
    mainExit em none mfa sR fR acc = 1 ∧
    mainTrace em none mfa sR fR = [] ∧
    (mainTrace (some "user") (some "pw") none sR fR)[0]? =
      some (.call .stored (sR 0)) := by
  have ht : (pyTruthy (some "user") && pyTruthy (some "pw")) = true := by decide
  refine ⟨by simp [mainExit, pyTruthy], by simp [mainTrace, pyTruthy],
    by simp [mainExit, pyTruthy], by simp [mainTrace, pyTruthy], ?_⟩
  have hh := loopTrace_head sR fR 2 0 0
  rw [List.head?_eq_getElem?] at hh
  simp only [mainTrace, ht, if_true]
  exact hh

end MMLogin
